import Mathlib

/-!
Verification of the flex_extract helper's job-decomposition-and-execution
engine (`downloader.py`).

Shallow embedding conventions:
* A calendar date is modelled by its day number (days since 0000-03-01 of the
  proleptic Gregorian calendar); `parseDate`/`formatDate` embed Python's
  `datetime.strptime(s, "%Y%m%d")` / `strftime("%Y%m%d")`.
* File contents of the CONTROL file are modelled as their list of lines,
  since the regexes of `replaceControlDates` are `re.MULTILINE` line-anchored.
* The file system is modelled by a predicate `fs : String → Bool` giving
  `os.path.exists`.
* The external process behaviour seen by `launchJob` is an oracle
  `env : Nat → LaunchEvent` giving, for the k-th `subprocess.Popen` call of
  the job, what `proc.wait` does: return an exit code, raise
  `TimeoutExpired`, or raise another exception; `spawnError` models `Popen`
  itself raising (note: in the source the `Popen` call sits *outside* the
  `try` block).
* `while` loops are translated to structurally recursive functions on an
  explicit fuel argument that is provably an upper bound on the number of
  remaining iterations.
-/

namespace FlexHelper

/-! ### Decimal rendering of naturals: Python `str(i)` and `str.rjust` -/

/-- The ASCII character of a decimal digit (`chr(48 + d)`). -/
def decChar (d : Nat) : Char := Char.ofNat (48 + d)

/-- Decimal digits of `n`, most significant first, with fuel
(`fuel > n` suffices). -/
def natDigitsAux : Nat → Nat → List Char
  | 0, _ => []
  | fuel+1, n => if n < 10 then [decChar n] else natDigitsAux fuel (n / 10) ++ [decChar (n % 10)]

/-- Python `str(n)` for a natural number `n`. -/
def strNat (n : Nat) : String := String.mk (natDigitsAux (n + 1) n)

/-- Python `s.rjust(w, c)`: left-pad `s` with `c` to width `w`
(unchanged if already at least that wide). -/
def rjust (s : String) (w : Nat) (c : Char) : String :=
  String.mk (List.replicate (w - s.length) c ++ s.data)

/-- Numeric value of a decimal digit character. -/
def digitVal (c : Char) : Nat := c.toNat - 48

/-- Value of a decimal digit string (leading zeros allowed). -/
def natVal (cs : List Char) : Nat := cs.foldl (fun a c => 10 * a + digitVal c) 0

theorem digitVal_decChar {d : Nat} (h : d < 10) : digitVal (decChar d) = d := by
  interval_cases d <;> decide

theorem natVal_append (cs : List Char) (c : Char) :
    natVal (cs ++ [c]) = 10 * natVal cs + digitVal c := by
  simp [natVal, List.foldl_append]

theorem natVal_natDigitsAux : ∀ fuel n, n < fuel → natVal (natDigitsAux fuel n) = n := by
  intro fuel
  induction fuel with
  | zero => omega
  | succ fuel ih =>
    intro n hn
    by_cases h : n < 10
    · simp [natDigitsAux, h, natVal, digitVal_decChar h]
    · have hdiv : n / 10 < fuel := by
        have : n / 10 < n := Nat.div_lt_self (by omega) (by omega)
        omega
      simp only [natDigitsAux, h, if_false]
      rw [natVal_append, ih _ hdiv, digitVal_decChar (Nat.mod_lt _ (by omega))]
      omega

theorem natVal_strNat (n : Nat) : natVal (strNat n).data = n :=
  natVal_natDigitsAux (n + 1) n (Nat.lt_succ_self n)

theorem natVal_replicate_zero (k : Nat) (cs : List Char) :
    natVal (List.replicate k (decChar 0) ++ cs) = natVal cs := by
  induction k with
  | zero => simp
  | succ k ih =>
    simpa [List.replicate_succ, natVal, digitVal] using ih

/-- A zero-padded decimal rendering still evaluates to the number,
whatever the padding width. -/
theorem natVal_rjust_strNat (n w : Nat) : natVal (rjust (strNat n) w '0').data = n := by
  have hz : ('0' : Char) = decChar 0 := by decide
  rw [rjust]
  show natVal (List.replicate (w - (strNat n).length) '0' ++ (strNat n).data) = n
  rw [hz, natVal_replicate_zero, natVal_strNat]

/-- Distinct naturals have distinct zero-padded decimal renderings. -/
theorem rjust_strNat_injective {i j w w' : Nat}
    (h : rjust (strNat i) w '0' = rjust (strNat j) w' '0') : i = j := by
  have := natVal_rjust_strNat i w
  rw [h, natVal_rjust_strNat] at this
  omega

/-! ### Calendar dates: `datetime.strptime/strftime` with format `%Y%m%d`

A date is a day number: days since 0000-03-01 (proleptic Gregorian),
following the standard civil-days algorithm. -/

/-- Day number of the civil date `(y, m, d)` (valid for `y ≥ 1`). -/
def daysFromCivil (y m d : Nat) : Nat :=
  let y' := if m ≤ 2 then y - 1 else y
  let era := y' / 400
  let yoe := y' % 400
  let mp  := if m > 2 then m - 3 else m + 9
  let doy := (153 * mp + 2) / 5 + d - 1
  let doe := yoe * 365 + yoe / 4 - yoe / 100 + doy
  era * 146097 + doe

/-- Civil date `(y, m, d)` of a day number. -/
def civilFromDays (z : Nat) : Nat × Nat × Nat :=
  let era := z / 146097
  let doe := z % 146097
  let yoe := (doe - doe / 1460 + doe / 36524 - doe / 146096) / 365
  let y := yoe + era * 400
  let doy := doe - (365 * yoe + yoe / 4 - yoe / 100)
  let mp := (5 * doy + 2) / 153
  let d := doy - (153 * mp + 2) / 5 + 1
  let m := if mp < 10 then mp + 3 else mp - 9
  (if m ≤ 2 then y + 1 else y, m, d)

/-- ASCII decimal digit test (embeds the regex class `\d` / strptime digits). -/
def isDigitCh (c : Char) : Bool := 48 ≤ c.toNat && c.toNat ≤ 57

/-- Number of days in a month (Gregorian), as validated by `strptime`. -/
def daysInMonth (y m : Nat) : Nat :=
  if m = 2 then (if y % 4 = 0 && (y % 100 ≠ 0 || y % 400 = 0) then 29 else 28)
  else if m = 4 || m = 6 || m = 9 || m = 11 then 30
  else 31

/-- `datetime.strptime(s, "%Y%m%d")`: an 8-digit string parsed to a day
number; `none` models the `ValueError` raised on malformed input. -/
def parseDate (s : String) : Option Nat :=
  match s.data with
  | [c1, c2, c3, c4, c5, c6, c7, c8] =>
    if (isDigitCh c1 && isDigitCh c2 && isDigitCh c3 && isDigitCh c4 &&
        isDigitCh c5 && isDigitCh c6 && isDigitCh c7 && isDigitCh c8) then
      let y := natVal [c1, c2, c3, c4]
      let m := natVal [c5, c6]
      let d := natVal [c7, c8]
      if 1 ≤ y && 1 ≤ m && m ≤ 12 && 1 ≤ d && d ≤ daysInMonth y m then
        some (daysFromCivil y m d)
      else none
    else none
  | _ => none

/-- `t.strftime("%Y%m%d")` for a day number. -/
def formatDate (z : Nat) : String :=
  let (y, m, d) := civilFromDays z
  rjust (strNat y) 4 '0' ++ rjust (strNat m) 2 '0' ++ rjust (strNat d) 2 '0'

/-! ### `breakDownDates`: the date-range partitioner

The source loop

    t1=t_start; t2=t1+dt
    while t1<=t_end:
        if t2>t_end: t2=t_end
        date_list.append((t1,t2)); t1=t2+1; t2=t1+dt

is embedded with an explicit fuel (any `fuel ≥ t_end + 1 - t1` gives the
loop's exact behaviour, since `t1` advances by at least one day per
iteration). -/

def breakLoop (t_end dt : Nat) : Nat → Nat → List (Nat × Nat)
  | 0, _ => []
  | fuel+1, t1 =>
    if t1 ≤ t_end then
      (t1, min (t1 + dt) t_end) :: breakLoop t_end dt fuel (min (t1 + dt) t_end + 1)
    else []

/-- The partitioner on day numbers (the `datetime` arithmetic of the source). -/
def breakDownDatesCore (t_start t_end days_per_job : Nat) : List (Nat × Nat) :=
  breakLoop t_end (days_per_job - 1) (t_end + 1 - t_start) t_start

/-- `breakDownDates(start_date, end_date, days_per_job)`; `Except` models the
two `raise Exception(...)` paths and a strptime failure. -/
def breakDownDates (start_date end_date : String) (days_per_job : Nat) :
    Except String (List (String × String)) :=
  if days_per_job < 1 then .error "<days_per_job> should be >=1."
  else
    match parseDate start_date, parseDate end_date with
    | some t_start, some t_end =>
      if t_start > t_end then .error "<start_date> is later than <end_date>."
      else .ok ((breakDownDatesCore t_start t_end days_per_job).map
                  fun p => (formatDate p.1, formatDate p.2))
    | _, _ => .error "time data does not match format"

theorem breakLoop_nil {t_end dt fuel t1 : Nat} (h : t_end < t1) :
    breakLoop t_end dt fuel t1 = [] := by
  cases fuel with
  | zero => rfl
  | succ fuel => simp [breakLoop, Nat.not_le.mpr h]

theorem breakLoop_master (t_end dt : Nat) :
    ∀ fuel t1, t_end + 1 - t1 ≤ fuel → t1 ≤ t_end →
    (breakLoop t_end dt fuel t1).head? = some (t1, min (t1 + dt) t_end) ∧
    (breakLoop t_end dt fuel t1).getLast?.map Prod.snd = some t_end ∧
    List.Chain' (fun a b => b.1 = a.2 + 1) (breakLoop t_end dt fuel t1) ∧
    List.Pairwise (fun a b => a.2 < b.1) (breakLoop t_end dt fuel t1) ∧
    (∀ p ∈ breakLoop t_end dt fuel t1, t1 ≤ p.1 ∧ p.1 ≤ p.2 ∧ p.2 ≤ t_end ∧ p.2 ≤ p.1 + dt) ∧
    (∀ d, (t1 ≤ d ∧ d ≤ t_end) ↔ ∃ p ∈ breakLoop t_end dt fuel t1, p.1 ≤ d ∧ d ≤ p.2) := by
  intro fuel
  induction fuel with
  | zero => intro t1 h1 h2; omega
  | succ fuel ih =>
    intro t1 h1 h2
    by_cases hend : t_end ≤ t1 + dt
    · have hmin : min (t1 + dt) t_end = t_end := by omega
      have hrest : breakLoop t_end dt fuel (t_end + 1) = [] := breakLoop_nil (by omega)
      simp only [breakLoop, if_pos h2, hmin, hrest]
      refine ⟨rfl, rfl, List.chain'_singleton _, List.pairwise_singleton _ _, ?_, ?_⟩
      · intro p hp
        simp only [List.mem_singleton] at hp
        subst hp
        exact ⟨Nat.le_refl _, h2, Nat.le_refl _, hend⟩
      · intro d
        simp only [List.mem_singleton]
        constructor
        · rintro ⟨hd1, hd2⟩; exact ⟨(t1, t_end), rfl, hd1, hd2⟩
        · rintro ⟨p, rfl, hd1, hd2⟩; exact ⟨hd1, hd2⟩
    · have hmin : min (t1 + dt) t_end = t1 + dt := by omega
      have hf' : t_end + 1 - (t1 + dt + 1) ≤ fuel := by omega
      have h2' : t1 + dt + 1 ≤ t_end := by omega
      obtain ⟨ihH, ihL, ihC, ihP, ihB, ihCov⟩ := ih (t1 + dt + 1) hf' h2'
      simp only [breakLoop, if_pos h2, hmin]
      obtain ⟨b, rest', hbr⟩ :
          ∃ b r', breakLoop t_end dt fuel (t1 + dt + 1) = b :: r' := by
        cases hr : breakLoop t_end dt fuel (t1 + dt + 1) with
        | nil => rw [hr] at ihH; simp at ihH
        | cons b r' => exact ⟨b, r', rfl⟩
      have hb1 : b.1 = t1 + dt + 1 := by
        rw [hbr] at ihH
        simp only [List.head?_cons, Option.some.injEq] at ihH
        rw [ihH]
      refine ⟨rfl, ?_, ?_, ?_, ?_, ?_⟩
      · rw [hbr, List.getLast?_cons_cons, ← hbr]
        exact ihL
      · rw [hbr]
        exact List.chain'_cons.mpr ⟨by simpa using hb1, hbr ▸ ihC⟩
      · refine List.Pairwise.cons ?_ ihP
        intro y hy
        exact Nat.lt_of_lt_of_le (by omega) (ihB y hy).1
      · intro p hp
        rcases List.mem_cons.mp hp with hp | hp
        · subst hp
          exact ⟨Nat.le_refl _, by omega, by omega, by omega⟩
        · obtain ⟨hp1, hp2, hp3, hp4⟩ := ihB p hp
          exact ⟨by omega, hp2, hp3, hp4⟩
      · intro d
        constructor
        · rintro ⟨hd1, hd2⟩
          by_cases hcut : d ≤ t1 + dt
          · exact ⟨(t1, t1 + dt), List.mem_cons_self _ _, hd1, hcut⟩
          · obtain ⟨p, hp, hpd⟩ := (ihCov d).mp ⟨by omega, hd2⟩
            exact ⟨p, List.mem_cons_of_mem _ hp, hpd⟩
        · rintro ⟨p, hp, hd1, hd2⟩
          rcases List.mem_cons.mp hp with hp | hp
          · subst hp
            exact ⟨hd1, by omega⟩
          · obtain ⟨hc1, hc2⟩ := (ihCov d).mpr ⟨p, hp, hd1, hd2⟩
            exact ⟨by omega, hc2⟩

/-- C1: for every start ≤ end (as day numbers) and chunkDays ≥ 1, the
partitioner returns an ordered, non-overlapping, gap-free sequence of
intervals (each next start one day after the previous end), each of length
at most chunkDays days, covering exactly [start, end], first start = start
and last end = end; at the string level `breakDownDates` is this core
partitioner under strptime/strftime, and in particular
start=20130203, end=20130207, chunkDays=2 yields
[(20130203,20130204), (20130205,20130206), (20130207,20130207)]. -/
theorem C1_partitioner :
    (∀ s e c : Nat, s ≤ e → 1 ≤ c →
      (breakDownDatesCore s e c).head?.map Prod.fst = some s ∧
      (breakDownDatesCore s e c).getLast?.map Prod.snd = some e ∧
      List.Chain' (fun a b => b.1 = a.2 + 1) (breakDownDatesCore s e c) ∧
      List.Pairwise (fun a b => a.2 < b.1) (breakDownDatesCore s e c) ∧
      (∀ p ∈ breakDownDatesCore s e c, p.1 ≤ p.2 ∧ p.2 + 1 ≤ p.1 + c) ∧
      (∀ d, (s ≤ d ∧ d ≤ e) ↔ ∃ p ∈ breakDownDatesCore s e c, p.1 ≤ d ∧ d ≤ p.2)) ∧
    (∀ sd ed c ds de, parseDate sd = some ds → parseDate ed = some de →
      ds ≤ de → 1 ≤ c →
      breakDownDates sd ed c =
        .ok ((breakDownDatesCore ds de c).map fun p => (formatDate p.1, formatDate p.2))) ∧
    breakDownDates "20130203" "20130207" 2 =
      .ok [("20130203", "20130204"), ("20130205", "20130206"), ("20130207", "20130207")] := by
  refine ⟨?_, ?_, rfl⟩
  · intro s e c hse hc
    obtain ⟨mH, mL, mC, mP, mB, mCov⟩ :=
      breakLoop_master e (c - 1) (e + 1 - s) s (Nat.le_refl _) hse
    refine ⟨?_, mL, mC, mP, ?_, mCov⟩
    · rw [breakDownDatesCore, mH]
      rfl
    · intro p hp
      obtain ⟨_, h2, _, h4⟩ := mB p hp
      exact ⟨h2, by omega⟩
  · intro sd ed c ds de hs he hle hc
    rw [breakDownDates, if_neg (by omega), hs, he]
    simp only [gt_iff_lt, Nat.not_lt.mpr hle, if_false]

/-- Witness for C1 at start=3, end=7, chunkDays=2. -/
theorem C1_partitioner_witness :
    List.Chain' (fun a b => b.1 = a.2 + 1) (breakDownDatesCore 3 7 2) ∧
    (breakDownDatesCore 3 7 2).getLast?.map Prod.snd = some 7 :=
  ⟨(C1_partitioner.1 3 7 2 (by decide) (by decide)).2.2.1,
   (C1_partitioner.1 3 7 2 (by decide) (by decide)).2.1⟩

/-! ### `replaceControlDates`: rewriting START_DATE / END_DATE

The CONTROL document is modelled as its list of lines; the regexes
`^START_DATE +(\d{8})` and `^END_DATE +(\d{8})` (`re.MULTILINE`) are
line-anchored, `pattern.search` is "some line matches", and `pattern.sub`
rewrites the matched portion of every matching line, keeping the rest of
the line. -/

/-- Drops the literal `pat` from the head of `cs`, if present. -/
def chopHead : List Char → List Char → Option (List Char)
  | [], cs => some cs
  | _ :: _, [] => none
  | p :: ps, c :: cs => if c = p then chopHead ps cs else none

/-- Consume exactly `k` decimal digits (the regex `\d{k}`). -/
def chopDigits : Nat → List Char → Option (List Char)
  | 0, cs => some cs
  | _+1, [] => none
  | k+1, c :: cs => if isDigitCh c then chopDigits k cs else none

/-- Match `^FIELD +(\d{8})` against one line; returns the line text after
the matched portion (which `re.sub` keeps unchanged). -/
def matchFieldLine (field : String) (line : String) : Option String := do
  let r1 ← chopHead field.data line.data
  match r1 with
  | ' ' :: r2 =>
      let r3 := r2.dropWhile (· = ' ')
      let r4 ← chopDigits 8 r3
      pure (String.mk r4)
  | _ => none

/-- `pattern.search(ctrl_str)` restricted to one line. -/
def fieldFound (field : String) (line : String) : Bool :=
  (matchFieldLine field line).isSome

/-- `pattern.sub('FIELD %s' % val, ...)` on one line: replace the matched
portion, pass a non-matching line through unchanged. -/
def subLine (field val : String) (line : String) : String :=
  match matchFieldLine field line with
  | some rest => field ++ " " ++ val ++ rest
  | none => line

/-- The try/except of `replaceControlDates` for one field: if some line
matches, substitute on every line; otherwise prepend a new
`FIELD value` line. -/
def applyFieldRule (field val : String) (lines : List String) : List String :=
  if lines.any (fieldFound field) then lines.map (subLine field val)
  else (field ++ " " ++ val) :: lines

/-- `replaceControlDates(ctrl_str, start_date, end_date)`: END_DATE is
handled first, then START_DATE, each by the same rule. -/
def replaceControlDates (lines : List String) (start_date end_date : String) :
    List String :=
  applyFieldRule "START_DATE" start_date (applyFieldRule "END_DATE" end_date lines)

/-- C7: the rewrite treats the start-bound and end-bound fields
independently by the same rule (replace the assignment in place if some
line carries it, else prepend a fresh assignment line; all non-matching
lines pass through unchanged), and a base document lacking an END_DATE
line, rewritten for (20130205, 20130206), gains a prepended
`END_DATE 20130206` line and an updated START_DATE line. -/
theorem C7_rewrite :
    (∀ lines sd ed, replaceControlDates lines sd ed =
        applyFieldRule "START_DATE" sd (applyFieldRule "END_DATE" ed lines)) ∧
    (∀ field val lines, lines.any (fieldFound field) = true →
        applyFieldRule field val lines = lines.map (subLine field val)) ∧
    (∀ field val lines, lines.any (fieldFound field) = false →
        applyFieldRule field val lines = (field ++ " " ++ val) :: lines) ∧
    (∀ field val line, fieldFound field line = false →
        subLine field val line = line) ∧
    replaceControlDates ["START_DATE 20130101", "CLASS EI"] "20130205" "20130206" =
      ["END_DATE 20130206", "START_DATE 20130205", "CLASS EI"] := by
  refine ⟨fun _ _ _ => rfl, ?_, ?_, ?_, by decide⟩
  · intro field val lines h
    rw [applyFieldRule, if_pos h]
  · intro field val lines h
    rw [applyFieldRule, if_neg (by simp [h])]
  · intro field val line h
    rw [subLine]
    rw [fieldFound] at h
    cases hm : matchFieldLine field line with
    | none => rfl
    | some r => rw [hm] at h; simp at h

/-- Witness for C7: the in-place replacement rule applied to a concrete
one-line document. -/
theorem C7_rewrite_witness :
    applyFieldRule "START_DATE" "20130205" ["START_DATE 20130101"] =
      ["START_DATE 20130205"] := by
  rw [C7_rewrite.2.1 "START_DATE" "20130205" ["START_DATE 20130101"] (by decide)]
  decide

/-! ### Path helpers: `os.path.join` and `os.path.split` (posix) -/

/-- `os.path.join(a, b)` for one component. -/
def pathJoin (a b : String) : String :=
  if b.data.head? = some '/' then b
  else if a = "" || a.data.getLast? = some '/' then a ++ b
  else a ++ "/" ++ b

/-- Position of the last `'/'` in a character list. -/
def lastSlashPos : List Char → Option Nat
  | [] => none
  | c :: cs =>
    match lastSlashPos cs with
    | some i => some (i + 1)
    | none => if c = '/' then some 0 else none

/-- Strip trailing `'/'` characters (`head.rstrip('/')`). -/
def rstripSlashes (cs : List Char) : List Char :=
  (cs.reverse.dropWhile (· = '/')).reverse

/-- `os.path.split(p)`: head/tail at the last slash, the head stripped of
trailing slashes unless it consists only of slashes. -/
def pathSplit (p : String) : String × String :=
  let i := match lastSlashPos p.data with | some k => k + 1 | none => 0
  let head := String.mk (p.data.take i)
  let tail := String.mk (p.data.drop i)
  if head ≠ "" && head.data.any (· ≠ '/') then
    (String.mk (rstripSlashes head.data), tail)
  else (head, tail)

/-- `isSkip(outputdir)`: a `job_done` record file exists in `outputdir`. -/
def isSkip (fs : String → Bool) (outputdir : String) : Bool :=
  fs (pathJoin outputdir "job_done")

/-! ### `launchJob`: the job runner -/

/-- What the k-th `subprocess.Popen` call of a job does, as observed by the
runner: `Popen` itself raising, or `proc.wait` raising `TimeoutExpired`,
raising some other exception, or returning an exit code. -/
inductive LaunchEvent
  | spawnError
  | timeout
  | waitError
  | exited (code : Int)
deriving DecidableEq

/-- Exceptions that escape `launchJob` (uncaught by its try block). -/
inductive RunError
  | logOpen
  | spawn
  | badArgs
deriving DecidableEq

/-- Result of one `launchJob` call: either an uncaught exception, or the
returned exit code together with the number of processes launched and the
completion-marker file written (path and content), if any. -/
inductive JobOutcome
  | raised (e : RunError) (launches : Nat)
  | finished (ret : Int) (launches : Nat) (marker : Option (String × String))
deriving DecidableEq

/-- Number of processes launched, whatever the outcome. -/
def launchesOf : JobOutcome → Nat
  | .raised _ n => n
  | .finished _ n _ => n

/-- `args[args.index(flag) + 1]`, `none` modelling the raised
`ValueError`/`IndexError`. -/
def argAfter (flag : String) : List String → Option String
  | [] => none
  | a :: rest => if a = flag then rest.head? else argAfter flag rest

/-- The `while tried <= retry` loop of `launchJob`. `fuel` is
`retry + 1 - tried` (the loop runs while `tried ≤ retry` and `tried` is
incremented exactly on timeout); `launches` counts started processes and
indexes the oracle; `ret` is the running value of the `ret` variable
(initially 1, only reassigned by a `proc.wait` that returns). -/
def launchLoop (env : Nat → LaunchEvent) (args : List String) (fs : String → Bool) :
    Nat → Nat → Int → JobOutcome
  | 0, launches, ret => .finished ret launches none
  | fuel+1, launches, ret =>
    match env launches with
    | .spawnError => .raised .spawn launches
    | .timeout => launchLoop env args fs fuel (launches + 1) ret
    | .waitError => .finished ret (launches + 1) none
    | .exited c =>
      if c = 0 then
        match argAfter "--outputdir" args with
        | none => .raised .badArgs (launches + 1)
        | some od =>
          .finished 0 (launches + 1)
            (if fs od then some (pathJoin od "job_done", "job done.") else none)
      else .finished c (launches + 1) none

/-- `launchJob(args, job_dates, logfilename, timeout, retry)`:
`open(logfilename, 'w')` first (raising if the log path is unwritable),
then the retry loop. -/
def launchJob (logWritable : Bool) (env : Nat → LaunchEvent) (args : List String)
    (retry : Nat) (fs : String → Bool) : JobOutcome :=
  if logWritable then launchLoop env args fs (retry + 1) 0 1
  else .raised .logOpen 0

theorem launchLoop_all_timeout (env : Nat → LaunchEvent) (args : List String)
    (fs : String → Bool) (h : ∀ k, env k = .timeout) :
    ∀ fuel launches ret,
      launchLoop env args fs fuel launches ret = .finished ret (launches + fuel) none := by
  intro fuel
  induction fuel with
  | zero => intro l r; rfl
  | succ fuel ih =>
    intro l r
    simp only [launchLoop, h]
    rw [ih (l + 1) r]
    congr 1
    omega

/-- C3: if every attempt times out, the runner launches the process exactly
`maxRetries + 1` times and returns the non-zero code 1 (Failed), writing no
marker. -/
theorem C3_timeout_retry_bound (env : Nat → LaunchEvent) (args : List String)
    (retry : Nat) (fs : String → Bool) (h : ∀ k, env k = .timeout) :
    launchJob true env args retry fs = .finished 1 (retry + 1) none ∧ (1 : Int) ≠ 0 := by
  refine ⟨?_, by decide⟩
  rw [launchJob, if_pos rfl, launchLoop_all_timeout env args fs h]
  norm_num

/-- Witness for C3: maxRetries = 2 gives exactly 3 launches. -/
theorem C3_timeout_retry_bound_witness :
    launchJob true (fun _ => .timeout) [] 2 (fun _ => false) = .finished 1 3 none ∧
      (1 : Int) ≠ 0 :=
  C3_timeout_retry_bound (fun _ => .timeout) [] 2 (fun _ => false) (fun _ => rfl)

/-- C5: a first attempt exiting with a non-zero code (no timeout) ends the
job at once: exactly one launch, no marker, and that exit code as result. -/
theorem C5_nonzero_exit_no_retry (env : Nat → LaunchEvent) (args : List String)
    (retry : Nat) (fs : String → Bool) (c : Int) (hc : c ≠ 0)
    (h0 : env 0 = .exited c) :
    launchJob true env args retry fs = .finished c 1 none := by
  rw [launchJob, if_pos rfl]
  show launchLoop env args fs (retry + 1) 0 1 = .finished c 1 none
  simp only [launchLoop, h0, if_neg hc]

/-- Witness for C5 at exit code 7. -/
theorem C5_nonzero_exit_no_retry_witness :
    launchJob true (fun _ => .exited 7) ["--outputdir", "/out"] 3 (fun _ => true) =
      .finished 7 1 none :=
  C5_nonzero_exit_no_retry (fun _ => .exited 7) ["--outputdir", "/out"] 3
    (fun _ => true) 7 (by decide) rfl

theorem launchLoop_marker (env : Nat → LaunchEvent) (args : List String)
    (fs : String → Bool) (od : String)
    (hod : argAfter "--outputdir" args = some od) :
    ∀ fuel l r n m, launchLoop env args fs fuel l 1 = .finished r n m →
      (m.isSome = true ↔ (r = 0 ∧ fs od = true)) ∧
      (∀ pc, m = some pc → pc = (pathJoin od "job_done", "job done.")) := by
  intro fuel
  induction fuel with
  | zero =>
    intro l r n m hrun
    simp only [launchLoop, JobOutcome.finished.injEq] at hrun
    obtain ⟨h1, _, h3⟩ := hrun
    subst h3
    refine ⟨?_, by simp⟩
    simp only [Option.isSome_none]
    constructor
    · intro h; cases h
    · rintro ⟨h0, _⟩; omega
  | succ fuel ih =>
    intro l r n m hrun
    simp only [launchLoop] at hrun
    cases hev : env l with
    | spawnError => simp only [hev] at hrun; cases hrun
    | timeout =>
      simp only [hev] at hrun
      exact ih (l + 1) r n m hrun
    | waitError =>
      simp only [hev, JobOutcome.finished.injEq] at hrun
      obtain ⟨h1, _, h3⟩ := hrun
      subst h3
      refine ⟨?_, by simp⟩
      simp only [Option.isSome_none]
      constructor
      · intro h; cases h
      · rintro ⟨h0, _⟩; omega
    | exited c =>
      by_cases hc : c = 0
      · simp only [hev, if_pos hc, hod, JobOutcome.finished.injEq] at hrun
        obtain ⟨h1, _, h3⟩ := hrun
        cases hfs : fs od with
        | true =>
          rw [hfs, if_pos rfl] at h3
          subst h3
          refine ⟨?_, ?_⟩
          · simp [← h1]
          · intro pc hpc
            simp only [Option.some.injEq] at hpc
            exact hpc.symm
        | false =>
          rw [hfs, if_neg (by simp)] at h3
          subst h3
          refine ⟨?_, by simp⟩
          simp [hfs]
      · simp only [hev, if_neg hc, JobOutcome.finished.injEq] at hrun
        obtain ⟨h1, _, h3⟩ := hrun
        subst h3
        refine ⟨?_, by simp⟩
        simp only [Option.isSome_none]
        constructor
        · intro h; cases h
        · rintro ⟨h0, _⟩; omega

/-- C6: for every run, the `job_done` marker (with its non-empty literal
content "job done.") is written into the job's output directory exactly
when the process exits with code 0 and that directory exists; on timeout,
non-zero exit or wait-time error no marker is created. -/
theorem C6_marker_iff (env : Nat → LaunchEvent) (args : List String) (retry : Nat)
    (fs : String → Bool) (od : String)
    (hod : argAfter "--outputdir" args = some od)
    (r : Int) (n : Nat) (m : Option (String × String))
    (hrun : launchJob true env args retry fs = .finished r n m) :
    (m.isSome = true ↔ (r = 0 ∧ fs od = true)) ∧
    (∀ pc, m = some pc →
      pc = (pathJoin od "job_done", "job done.") ∧ pc.2 ≠ "") := by
  rw [launchJob, if_pos rfl] at hrun
  obtain ⟨h1, h2⟩ := launchLoop_marker env args fs od hod (retry + 1) 0 r n m hrun
  refine ⟨h1, ?_⟩
  intro pc hpc
  refine ⟨h2 pc hpc, ?_⟩
  rw [h2 pc hpc]
  show ("job done." : String) ≠ ""
  decide

/-- Witness for C6: a run that exits 0 with an existing output directory
writes the marker. -/
theorem C6_marker_iff_witness :
    ((some (("/out/job_done" : String), ("job done." : String))).isSome = true ↔
      ((0 : Int) = 0 ∧ (fun (_ : String) => true) "/out" = true)) ∧
    (∀ pc, (some (("/out/job_done" : String), ("job done." : String))) = some pc →
      pc = (pathJoin "/out" "job_done", "job done.") ∧ pc.2 ≠ "") :=
  C6_marker_iff (fun _ => .exited 0) ["--outputdir", "/out"] 0 (fun _ => true)
    "/out" rfl 0 1 (some ("/out/job_done", "job done.")) rfl

/-- C4 counterexample: a job whose process fails to launch (`Popen`
raises, e.g. executable not found) makes the runner raise past its own
boundary instead of returning a result — the `Popen` call sits outside the
try block. -/
theorem C4_counterexample :
    launchJob true (fun _ => .spawnError) ["python", "-u", "submit.py"] 3
      (fun _ => false) = .raised .spawn 0 := rfl

/-- C4 (amended): a non-timeout runtime error raised while waiting on the
process sends the job directly to Failed with no retry and the runner still
returns; but an error from launching the process itself (`Popen` raising)
propagates past the runner's boundary, as does an unwritable log path. -/
theorem C4_error_containment (env : Nat → LaunchEvent) (args : List String)
    (retry : Nat) (fs : String → Bool) :
    (env 0 = .waitError → launchJob true env args retry fs = .finished 1 1 none) ∧
    (env 0 = .spawnError → launchJob true env args retry fs = .raised .spawn 0) ∧
    launchJob false env args retry fs = .raised .logOpen 0 := by
  refine ⟨?_, ?_, rfl⟩
  · intro h0
    rw [launchJob, if_pos rfl]
    show launchLoop env args fs (retry + 1) 0 1 = .finished 1 1 none
    simp only [launchLoop, h0]
  · intro h0
    rw [launchJob, if_pos rfl]
    show launchLoop env args fs (retry + 1) 0 1 = .raised .spawn 0
    simp only [launchLoop, h0]

/-- Witness for the amended C4 at a concrete wait-time error. -/
theorem C4_error_containment_witness :
    launchJob true (fun _ => .waitError) [] 5 (fun _ => false) = .finished 1 1 none :=
  (C4_error_containment (fun _ => .waitError) [] 5 (fun _ => false)).1 rfl

/-! ### `prepareJobList`: building the job specs

`PrepArgs` bundles the (positional) arguments of `prepareJobList`;
`ctrl_str` is the content of the default CONTROL file as read once by
`open(ctrl_file, 'r').read()` at entry, modelled as its list of lines. -/

structure PrepArgs where
  exe_file : String
  ctrl_file : String
  ctrl_str : List String
  outputdir : String
  time_out : Option Nat
  time_out_retry : Nat
  jobPfx : String
  copy_control : Bool
deriving DecidableEq

/-- The per-job dict passed to `launchJobUnpack`. -/
structure Job where
  args : List String
  job_dates : String × String × String
  timeout : Option Nat
  logfile : String
  retry : Nat
deriving DecidableEq

/-- One loop iteration of `prepareJobList` either reports a skip (with id
and interval) or adds a job, possibly writing a per-job CONTROL copy
(path, content). -/
inductive JobEvent
  | skip (id t1 t2 : String)
  | add (job : Job) (write : Option (String × List String))
deriving DecidableEq

/-- Job id at position `i` of a batch of `n` intervals:
`str(i).rjust(len(str(n)), '0')`. -/
def jobId (n i : Nat) : String := rjust (strNat i) (strNat n).length '0'

/-- The per-job folder base `os.path.join(outputdir, '%s_%s_%s-%s' % ...)`. -/
def jobOutBase (outputdir jobPfx id t1 t2 : String) : String :=
  pathJoin outputdir (jobPfx ++ "_" ++ id ++ "_" ++ t1 ++ "-" ++ t2)

/-- The per-job CONTROL copy path
`os.path.join(ctrl_folder, '%s_%s_%s' % (ctrl_fname, job_prefix, id))`. -/
def jobCtrlPath (ctrl_folder ctrl_fname jobPfx id : String) : String :=
  pathJoin ctrl_folder (ctrl_fname ++ "_" ++ jobPfx ++ "_" ++ id)

/-- The CONTROL path used for the job at position `i`. -/
def ctrlPathFor (P : PrepArgs) (n i : Nat) : String :=
  if P.copy_control then
    jobCtrlPath (pathSplit P.ctrl_file).1 (pathSplit P.ctrl_file).2 P.jobPfx (jobId n i)
  else P.ctrl_file

/-- The job spec built at position `i` — a pure function of the prepare
arguments, the position, the interval count and the interval bounds (no
file-system dependence). -/
def jobFor (P : PrepArgs) (n i : Nat) (t1 t2 : String) : Job :=
  let id := jobId n i
  let base := jobOutBase P.outputdir P.jobPfx id t1 t2
  { args := ["python", "-u", P.exe_file, "--controlfile", ctrlPathFor P n i,
             "--inputdir", base ++ "_tmp", "--outputdir", base ++ "_out"]
    job_dates := (id, t1, t2)
    timeout := P.time_out
    logfile := P.jobPfx ++ "_" ++ id ++ ".txt"
    retry := P.time_out_retry }

/-- The CONTROL copy written for the job at position `i` (when
`copy_control` is set): the snapshot `ctrl_str` with the interval's dates. -/
def writeFor (P : PrepArgs) (n i : Nat) (t1 t2 : String) :
    Option (String × List String) :=
  if P.copy_control then
    some (ctrlPathFor P n i, replaceControlDates P.ctrl_str t1 t2)
  else none

/-- One iteration of the `prepareJobList` loop. -/
def jobEventFor (P : PrepArgs) (fs : String → Bool) (n i : Nat) (t1 t2 : String) :
    JobEvent :=
  let id := jobId n i
  if isSkip fs (jobOutBase P.outputdir P.jobPfx id t1 t2 ++ "_out") then
    .skip id t1 t2
  else
    .add (jobFor P n i t1 t2) (writeFor P n i t1 t2)

/-- The whole `for idii, dateii in enumerate(date_list)` loop. -/
def prepareJobEvents (P : PrepArgs) (fs : String → Bool)
    (date_list : List (String × String)) : List JobEvent :=
  date_list.enum.map fun p => jobEventFor P fs date_list.length p.1 p.2.1 p.2.2

/-- The job of an event, if any. -/
def toJobOpt : JobEvent → Option Job
  | .add j _ => some j
  | .skip _ _ _ => none

/-- The CONTROL write of an event, if any. -/
def toWriteOpt : JobEvent → Option (String × List String)
  | .add _ w => w
  | .skip _ _ _ => none

/-- The returned `job_list`. -/
def prepareJobList (P : PrepArgs) (fs : String → Bool)
    (date_list : List (String × String)) : List Job :=
  (prepareJobEvents P fs date_list).filterMap toJobOpt

/-- The CONTROL files written during `prepareJobList` (path, content). -/
def prepareWrites (P : PrepArgs) (fs : String → Bool)
    (date_list : List (String × String)) : List (String × List String) :=
  (prepareJobEvents P fs date_list).filterMap toWriteOpt

/-- The configuration path the job reads at run time, as the source reads
it back: `args[args.index('--controlfile')+1]`. -/
def jobCtrlArg (j : Job) : Option String := argAfter "--controlfile" j.args

/-- Content of the file at `p` after the batch was prepared (performing
`writes`) and the base configuration file was afterwards overwritten with
`baseNow`. -/
def resolvedConfig (writes : List (String × List String)) (basePath : String)
    (baseNow : List String) (p : String) : Option (List String) :=
  if p = basePath then some baseNow else List.lookup p writes

/-! ### String and path facts used for id/path uniqueness -/

theorem strApp_cancel {s t u : String} (h : s ++ t = s ++ u) : t = u := by
  apply String.ext
  have hd := congrArg String.data h
  rw [String.data_append, String.data_append] at hd
  exact List.append_cancel_left hd

theorem strApp_ne_self {n s : String} (hs : s.data ≠ []) : n ++ s ≠ n := by
  intro h
  have hd := congrArg String.data h
  rw [String.data_append] at hd
  have hlen := congrArg List.length hd
  rw [List.length_append] at hlen
  have : s.data.length = 0 := by omega
  exact hs (List.eq_nil_of_length_eq_zero this)

theorem head?_data_append {s t : String} (h : s.data ≠ []) :
    (s ++ t).data.head? = s.data.head? := by
  rw [String.data_append, List.head?_append]
  cases hs : s.data with
  | nil => exact absurd hs h
  | cons c cs => rfl

/-- `pathJoin` with an absolute second component returns it unchanged. -/
theorem pathJoin_abs {b : String} (hb : b.data.head? = some '/') (a : String) :
    pathJoin a b = b := by
  rw [pathJoin, if_pos hb]

/-- `pathJoin` is injective in its second component when that component is
not absolute. -/
theorem pathJoin_inj_nonabs {a b b' : String}
    (hb : b.data.head? ≠ some '/') (hb' : b'.data.head? ≠ some '/')
    (h : pathJoin a b = pathJoin a b') : b = b' := by
  rw [pathJoin, pathJoin, if_neg hb, if_neg hb'] at h
  by_cases ha : (a = "" || a.data.getLast? = some '/') = true
  · rw [if_pos ha, if_pos ha] at h
    exact strApp_cancel h
  · rw [if_neg ha, if_neg ha] at h
    exact strApp_cancel h

theorem jobCtrlPath_inj {folder fname pfx id id' : String}
    (h : jobCtrlPath folder fname pfx id = jobCtrlPath folder fname pfx id') :
    id = id' := by
  rw [jobCtrlPath, jobCtrlPath] at h
  have hc : (fname ++ "_" ++ pfx ++ "_").data ≠ [] := by
    intro hnil
    rw [String.data_append] at hnil
    have h1 : ("_" : String).data = ['_'] := rfl
    rw [h1] at hnil
    rcases List.append_eq_nil.mp hnil with ⟨_, h2⟩
    cases h2
  have hh : ∀ x : String, ((fname ++ "_" ++ pfx ++ "_") ++ x).data.head? =
      (fname ++ "_" ++ pfx ++ "_").data.head? := fun x => head?_data_append hc
  have hassoc : ∀ x : String, fname ++ "_" ++ pfx ++ "_" ++ x =
      (fname ++ "_" ++ pfx ++ "_") ++ x := fun _ => rfl
  rw [hassoc id, hassoc id'] at h
  by_cases habs : ((fname ++ "_" ++ pfx ++ "_") ++ id).data.head? = some '/'
  · have habs' : ((fname ++ "_" ++ pfx ++ "_") ++ id').data.head? = some '/' := by
      rw [hh id'] ; rw [hh id] at habs ; exact habs
    rw [pathJoin_abs habs, pathJoin_abs habs'] at h
    exact strApp_cancel h
  · have habs' : ¬ ((fname ++ "_" ++ pfx ++ "_") ++ id').data.head? = some '/' := by
      rw [hh id'] ; rw [hh id] at habs ; exact habs
    exact strApp_cancel (pathJoin_inj_nonabs habs habs' h)

/-- A per-job CONTROL copy path never collides with the (well-formed) base
CONTROL path it is derived from. -/
theorem jobCtrlPath_ne_base {p pfx id : String}
    (hwf : pathJoin (pathSplit p).1 (pathSplit p).2 = p) :
    jobCtrlPath (pathSplit p).1 (pathSplit p).2 pfx id ≠ p := by
  intro h
  set a := (pathSplit p).1 with ha
  set n := (pathSplit p).2 with hn
  rw [jobCtrlPath] at h
  have hassoc : n ++ "_" ++ pfx ++ "_" ++ id = n ++ ("_" ++ (pfx ++ ("_" ++ id))) := by
    rw [String.append_assoc, String.append_assoc, String.append_assoc]
  rw [hassoc] at h
  set s := "_" ++ (pfx ++ ("_" ++ id)) with hsdef
  have hs : s.data.head? = some '_' := by
    rw [hsdef, String.data_append]
    rfl
  have hsne : s.data ≠ [] := by
    intro hnil
    rw [hnil] at hs
    cases hs
  have hcollapse : n ++ s = n := by
    by_cases hnn : n.data = []
    · have hb : (n ++ s).data.head? ≠ some '/' := by
        rw [String.data_append, hnn, List.nil_append, hs]
        intro hcontr
        cases hcontr
      have hb' : n.data.head? ≠ some '/' := by
        rw [hnn]
        intro hcontr
        cases hcontr
      exact pathJoin_inj_nonabs hb hb' (h.trans hwf.symm)
    · by_cases habs : n.data.head? = some '/'
      · have hb : (n ++ s).data.head? = some '/' := by
          rw [head?_data_append hnn, habs]
        rw [pathJoin_abs hb] at h
        rw [pathJoin_abs habs] at hwf
        exact h.trans hwf.symm
      · have hb : (n ++ s).data.head? ≠ some '/' := by
          rw [head?_data_append hnn]
          exact habs
        exact pathJoin_inj_nonabs hb habs (h.trans hwf.symm)
  exact strApp_ne_self hsne hcollapse

theorem enumFrom_pairwise_fst_lt {α : Type} (l : List α) :
    ∀ k, (List.enumFrom k l).Pairwise (fun a b => a.1 < b.1) := by
  induction l with
  | nil => intro k; simp
  | cons x xs ih =>
    intro k
    rw [List.enumFrom_cons]
    refine List.Pairwise.cons ?_ (ih (k + 1))
    intro b hb
    exact Nat.lt_of_lt_of_le (Nat.lt_succ_self k) (List.le_fst_of_mem_enumFrom hb)

theorem enum_pairwise_fst_lt {α : Type} (l : List α) :
    l.enum.Pairwise (fun a b => a.1 < b.1) := by
  rw [List.enum_eq_enumFrom]
  exact enumFrom_pairwise_fst_lt l 0

theorem lookup_of_pairwise_ne {β : Type} {l : List (String × β)}
    (hp : l.Pairwise (fun a b => a.1 ≠ b.1)) {k : String} {v : β}
    (hm : (k, v) ∈ l) : List.lookup k l = some v := by
  induction l with
  | nil => cases hm
  | cons x xs ih =>
    obtain ⟨a, b⟩ := x
    rcases List.mem_cons.mp hm with heq | hm'
    · cases heq
      simp [List.lookup]
    · have hne : a ≠ k := by
        have := (List.pairwise_cons.mp hp).1 (k, v) hm'
        exact this
      have hbeq : (k == a) = false := by
        rw [beq_eq_false_iff_ne]
        exact fun hkk => hne hkk.symm
      rw [List.lookup_cons, hbeq]
      exact ih (List.pairwise_cons.mp hp).2 hm'

/-! ### Facts about single prepare-loop iterations -/

theorem jobEventFor_skip (P : PrepArgs) (fs : String → Bool) (n i : Nat)
    (t1 t2 : String)
    (h : isSkip fs (jobOutBase P.outputdir P.jobPfx (jobId n i) t1 t2 ++ "_out") = true) :
    jobEventFor P fs n i t1 t2 = .skip (jobId n i) t1 t2 := by
  rw [jobEventFor]
  simp only [h, if_true]

theorem jobEventFor_add (P : PrepArgs) (fs : String → Bool) (n i : Nat)
    (t1 t2 : String)
    (h : isSkip fs (jobOutBase P.outputdir P.jobPfx (jobId n i) t1 t2 ++ "_out") = false) :
    jobEventFor P fs n i t1 t2 = .add (jobFor P n i t1 t2) (writeFor P n i t1 t2) := by
  rw [jobEventFor]
  simp only [h, Bool.false_eq_true, if_false]

theorem mem_toJobOpt {P : PrepArgs} {fs : String → Bool} {n i : Nat}
    {t1 t2 : String} {j : Job}
    (hj : toJobOpt (jobEventFor P fs n i t1 t2) = some j) :
    j = jobFor P n i t1 t2 ∧
    isSkip fs (jobOutBase P.outputdir P.jobPfx (jobId n i) t1 t2 ++ "_out") = false := by
  by_cases h : isSkip fs (jobOutBase P.outputdir P.jobPfx (jobId n i) t1 t2 ++ "_out") = true
  · rw [jobEventFor_skip P fs n i t1 t2 h] at hj
    cases hj
  · have hf : isSkip fs (jobOutBase P.outputdir P.jobPfx (jobId n i) t1 t2 ++ "_out") = false := by
      cases hb : isSkip fs (jobOutBase P.outputdir P.jobPfx (jobId n i) t1 t2 ++ "_out")
      · rfl
      · exact absurd hb h
    rw [jobEventFor_add P fs n i t1 t2 hf] at hj
    rw [toJobOpt] at hj
    exact ⟨(Option.some.injEq _ _ ▸ hj).symm, hf⟩

theorem mem_toWriteOpt {P : PrepArgs} {fs : String → Bool} {n i : Nat}
    {t1 t2 : String} {w : String × List String}
    (hcc : P.copy_control = true)
    (hw : toWriteOpt (jobEventFor P fs n i t1 t2) = some w) :
    w = (ctrlPathFor P n i, replaceControlDates P.ctrl_str t1 t2) := by
  by_cases h : isSkip fs (jobOutBase P.outputdir P.jobPfx (jobId n i) t1 t2 ++ "_out") = true
  · rw [jobEventFor_skip P fs n i t1 t2 h] at hw
    cases hw
  · have hf : isSkip fs (jobOutBase P.outputdir P.jobPfx (jobId n i) t1 t2 ++ "_out") = false := by
      cases hb : isSkip fs (jobOutBase P.outputdir P.jobPfx (jobId n i) t1 t2 ++ "_out")
      · rfl
      · exact absurd hb h
    rw [jobEventFor_add P fs n i t1 t2 hf] at hw
    rw [toWriteOpt, writeFor, if_pos hcc] at hw
    exact ((Option.some.injEq _ _).mp hw).symm

theorem ctrlPathFor_inj {P : PrepArgs} (hcc : P.copy_control = true) {n i j : Nat}
    (h : ctrlPathFor P n i = ctrlPathFor P n j) : i = j := by
  rw [ctrlPathFor, ctrlPathFor, if_pos hcc, if_pos hcc] at h
  exact rjust_strNat_injective (jobCtrlPath_inj h)

theorem ctrlPathFor_ne_base {P : PrepArgs} (hcc : P.copy_control = true)
    (hwf : pathJoin (pathSplit P.ctrl_file).1 (pathSplit P.ctrl_file).2 = P.ctrl_file)
    (n i : Nat) : ctrlPathFor P n i ≠ P.ctrl_file := by
  rw [ctrlPathFor, if_pos hcc]
  exact jobCtrlPath_ne_base hwf

/-- C2: a job whose output directory already holds the `job_done` marker is
reported skipped (with its id and interval) and contributes no job; when
every interval's output directory holds the marker, the prepared job list
is empty and a second engine run makes zero external invocations, whatever
the process environment. -/
theorem C2_done_jobs_skipped (P : PrepArgs) (fs : String → Bool)
    (date_list : List (String × String)) :
    (∀ p ∈ date_list.enum,
      fs (pathJoin (jobOutBase P.outputdir P.jobPfx (jobId date_list.length p.1)
            p.2.1 p.2.2 ++ "_out") "job_done") = true →
      jobEventFor P fs date_list.length p.1 p.2.1 p.2.2 =
        .skip (jobId date_list.length p.1) p.2.1 p.2.2) ∧
    ((∀ p ∈ date_list.enum,
        fs (pathJoin (jobOutBase P.outputdir P.jobPfx (jobId date_list.length p.1)
              p.2.1 p.2.2 ++ "_out") "job_done") = true) →
      prepareJobList P fs date_list = [] ∧
      ∀ run : Job → JobOutcome,
        ((prepareJobList P fs date_list).map fun j => launchesOf (run j)).sum = 0) := by
  have hskip : ∀ p ∈ date_list.enum,
      fs (pathJoin (jobOutBase P.outputdir P.jobPfx (jobId date_list.length p.1)
            p.2.1 p.2.2 ++ "_out") "job_done") = true →
      jobEventFor P fs date_list.length p.1 p.2.1 p.2.2 =
        .skip (jobId date_list.length p.1) p.2.1 p.2.2 := by
    intro p _ hdone
    exact jobEventFor_skip P fs date_list.length p.1 p.2.1 p.2.2 hdone
  refine ⟨hskip, ?_⟩
  intro hall
  have hnil : prepareJobList P fs date_list = [] := by
    rw [prepareJobList, List.filterMap_eq_nil_iff]
    intro e he
    rw [prepareJobEvents] at he
    obtain ⟨p, hp, rfl⟩ := List.mem_map.mp he
    rw [hskip p hp (hall p hp)]
    rfl
  refine ⟨hnil, ?_⟩
  intro run
  rw [hnil]
  rfl

/-- A concrete prepare configuration used by witnesses. -/
def demoPrep : PrepArgs where
  exe_file := "/fx/Source/Python/submit.py"
  ctrl_file := "/fx/Run/Control/CONTROL_EI.public"
  ctrl_str := ["CLASS EI"]
  outputdir := "/data"
  time_out := some 14400
  time_out_retry := 3
  jobPfx := "EI_job"
  copy_control := true

/-- Witness for C2: with the marker everywhere, the prepared list is empty. -/
theorem C2_done_jobs_skipped_witness :
    prepareJobList demoPrep (fun _ => true) [("20130203", "20130204")] = [] :=
  ((C2_done_jobs_skipped demoPrep (fun _ => true) [("20130203", "20130204")]).2
    (by decide)).1

/-- The source's own read-back of the job's CONTROL path,
`args[args.index('--controlfile')+1]`, on a job built by `jobFor`. -/
theorem jobCtrlArg_jobFor (P : PrepArgs) (hexe : P.exe_file ≠ "--controlfile")
    (n i : Nat) (t1 t2 : String) :
    jobCtrlArg (jobFor P n i t1 t2) = some (ctrlPathFor P n i) := by
  show argAfter "--controlfile" ["python", "-u", P.exe_file, "--controlfile",
      ctrlPathFor P n i,
      "--inputdir", jobOutBase P.outputdir P.jobPfx (jobId n i) t1 t2 ++ "_tmp",
      "--outputdir", jobOutBase P.outputdir P.jobPfx (jobId n i) t1 t2 ++ "_out"] =
    some (ctrlPathFor P n i)
  rw [argAfter, if_neg (by decide)]
  rw [argAfter, if_neg (by decide)]
  rw [argAfter, if_neg hexe]
  rw [argAfter, if_pos rfl]
  rfl

/-- C10: the job at 0-based position `i` of `n` intervals gets id
`str(i).rjust(len(str(n)), '0')`; the loop computes its event at position
`i` before skip-filtering; its id, dates, log name and input/output
directories are functions of the position, the interval count, the prefix
and the interval bounds only, hence identical across invocations whatever
other jobs are already completed. -/
theorem C10_job_identity (P : PrepArgs) (fs fs' : String → Bool)
    (date_list : List (String × String)) (p : Nat × String × String)
    (hp : p ∈ date_list.enum) :
    (prepareJobEvents P fs date_list)[p.1]? =
      some (jobEventFor P fs date_list.length p.1 p.2.1 p.2.2) ∧
    jobId date_list.length p.1 =
      rjust (strNat p.1) (strNat date_list.length).length '0' ∧
    (isSkip fs (jobOutBase P.outputdir P.jobPfx (jobId date_list.length p.1)
        p.2.1 p.2.2 ++ "_out") = true →
      jobEventFor P fs date_list.length p.1 p.2.1 p.2.2 =
        .skip (jobId date_list.length p.1) p.2.1 p.2.2) ∧
    (isSkip fs (jobOutBase P.outputdir P.jobPfx (jobId date_list.length p.1)
        p.2.1 p.2.2 ++ "_out") = false →
      jobEventFor P fs date_list.length p.1 p.2.1 p.2.2 =
        .add (jobFor P date_list.length p.1 p.2.1 p.2.2)
             (writeFor P date_list.length p.1 p.2.1 p.2.2)) ∧
    (jobFor P date_list.length p.1 p.2.1 p.2.2).job_dates =
      (jobId date_list.length p.1, p.2.1, p.2.2) ∧
    (jobFor P date_list.length p.1 p.2.1 p.2.2).logfile =
      P.jobPfx ++ "_" ++ jobId date_list.length p.1 ++ ".txt" ∧
    (jobFor P date_list.length p.1 p.2.1 p.2.2).args =
      ["python", "-u", P.exe_file,
       "--controlfile", ctrlPathFor P date_list.length p.1,
       "--inputdir",
         jobOutBase P.outputdir P.jobPfx (jobId date_list.length p.1)
           p.2.1 p.2.2 ++ "_tmp",
       "--outputdir",
         jobOutBase P.outputdir P.jobPfx (jobId date_list.length p.1)
           p.2.1 p.2.2 ++ "_out"] ∧
    (isSkip fs (jobOutBase P.outputdir P.jobPfx (jobId date_list.length p.1)
        p.2.1 p.2.2 ++ "_out") = false →
     isSkip fs' (jobOutBase P.outputdir P.jobPfx (jobId date_list.length p.1)
        p.2.1 p.2.2 ++ "_out") = false →
      jobEventFor P fs date_list.length p.1 p.2.1 p.2.2 =
        jobEventFor P fs' date_list.length p.1 p.2.1 p.2.2) := by
  refine ⟨?_, rfl, jobEventFor_skip P fs _ _ _ _, jobEventFor_add P fs _ _ _ _,
    rfl, rfl, rfl, ?_⟩
  · rw [prepareJobEvents, List.getElem?_map, List.getElem?_enum,
      List.mem_enum_iff_getElem?.mp hp]
    rfl
  · intro h1 h2
    rw [jobEventFor_add P fs _ _ _ _ h1, jobEventFor_add P fs' _ _ _ _ h2]

/-- Witness for C10: position 0 of a 1-interval batch gets id "0" in its
job_dates triple. -/
theorem C10_job_identity_witness :
    (jobFor demoPrep 1 0 "20130203" "20130204").job_dates =
      (jobId 1 0, "20130203", "20130204") :=
  (C10_job_identity demoPrep (fun _ => false) (fun _ => false)
    [("20130203", "20130204")] (0, ("20130203", "20130204"))
    (by decide)).2.2.2.2.1

/-- C8: with `copy_control` on, distinct jobs of a batch get distinct
CONTROL copy paths (unique to the job id), and each job's resolved
configuration is the snapshot `ctrl_str` (read once before spec building)
with the job's dates substituted — unchanged by any later overwrite of the
base CONTROL file. -/
theorem C8_config_isolation (P : PrepArgs) (fs : String → Bool)
    (date_list : List (String × String))
    (hcc : P.copy_control = true)
    (hexe : P.exe_file ≠ "--controlfile")
    (hwf : pathJoin (pathSplit P.ctrl_file).1 (pathSplit P.ctrl_file).2 = P.ctrl_file) :
    (prepareJobList P fs date_list).Pairwise
      (fun a b => jobCtrlArg a ≠ jobCtrlArg b) ∧
    (∀ j ∈ prepareJobList P fs date_list, ∃ p ∈ date_list.enum,
      j = jobFor P date_list.length p.1 p.2.1 p.2.2 ∧
      jobCtrlArg j = some (ctrlPathFor P date_list.length p.1) ∧
      ∀ baseNow : List String,
        resolvedConfig (prepareWrites P fs date_list) P.ctrl_file baseNow
            (ctrlPathFor P date_list.length p.1) =
          some (replaceControlDates P.ctrl_str p.2.1 p.2.2)) := by
  have hpw : (prepareJobEvents P fs date_list).Pairwise
      (fun e e' => ∀ a ∈ toJobOpt e, ∀ b ∈ toJobOpt e', jobCtrlArg a ≠ jobCtrlArg b) := by
    rw [prepareJobEvents, List.pairwise_map]
    refine List.Pairwise.imp ?_ (enum_pairwise_fst_lt date_list)
    intro p q hlt a ha b hb
    obtain ⟨ha', -⟩ := mem_toJobOpt (Option.mem_def.mp ha)
    obtain ⟨hb', -⟩ := mem_toJobOpt (Option.mem_def.mp hb)
    rw [ha', hb', jobCtrlArg_jobFor P hexe, jobCtrlArg_jobFor P hexe]
    intro heq
    have := ctrlPathFor_inj hcc ((Option.some.injEq _ _).mp heq)
    omega
  have hpwW : (prepareWrites P fs date_list).Pairwise (fun w w' => w.1 ≠ w'.1) := by
    rw [prepareWrites, List.pairwise_filterMap, prepareJobEvents, List.pairwise_map]
    refine List.Pairwise.imp ?_ (enum_pairwise_fst_lt date_list)
    intro p q hlt w hw w' hw'
    rw [mem_toWriteOpt hcc (Option.mem_def.mp hw),
        mem_toWriteOpt hcc (Option.mem_def.mp hw')]
    intro heq
    have := ctrlPathFor_inj hcc heq
    omega
  refine ⟨List.pairwise_filterMap.mpr hpw, ?_⟩
  intro j hj
  rw [prepareJobList] at hj
  obtain ⟨e, he, hje⟩ := List.mem_filterMap.mp hj
  rw [prepareJobEvents] at he
  obtain ⟨p, hp, rfl⟩ := List.mem_map.mp he
  obtain ⟨hjeq, hns⟩ := mem_toJobOpt hje
  refine ⟨p, hp, hjeq, by rw [hjeq]; exact jobCtrlArg_jobFor P hexe _ _ _ _, ?_⟩
  intro baseNow
  rw [resolvedConfig, if_neg (ctrlPathFor_ne_base hcc hwf _ _)]
  apply lookup_of_pairwise_ne hpwW
  apply List.mem_filterMap.mpr
  refine ⟨jobEventFor P fs date_list.length p.1 p.2.1 p.2.2, ?_, ?_⟩
  · rw [prepareJobEvents]
    exact List.mem_map.mpr ⟨p, hp, rfl⟩
  · rw [jobEventFor_add P fs _ _ _ _ hns]
    rw [toWriteOpt, writeFor, if_pos hcc]

/-- Witness for C8: two concrete jobs get distinct CONTROL copy paths. -/
theorem C8_config_isolation_witness :
    (prepareJobList demoPrep (fun _ => false)
        [("20130203", "20130204"), ("20130205", "20130206")]).Pairwise
      (fun a b => jobCtrlArg a ≠ jobCtrlArg b) :=
  (C8_config_isolation demoPrep (fun _ => false)
    [("20130203", "20130204"), ("20130205", "20130206")]
    rfl (by decide) (by decide)).1

/-! ### `printJobSummary` and the dispatch decision of `main` -/

/-- The per-job fields rendered by `printJobSummary`: id, interval, CONTROL
file, log file, input/output dirs, timeout and retries (the path fields are
read back from the argument list, as the source does with `args.index`). -/
structure JobRender where
  id : String
  t1 : String
  t2 : String
  ctrl : Option String
  log : String
  inputdir : Option String
  outputdir : Option String
  timeout : Option Nat
  retry : Nat
deriving DecidableEq

/-- The rendering of one job — a pure function of the job spec. -/
def renderJob (j : Job) : JobRender where
  id := j.job_dates.1
  t1 := j.job_dates.2.1
  t2 := j.job_dates.2.2
  ctrl := argAfter "--controlfile" j.args
  log := j.logfile
  inputdir := argAfter "--inputdir" j.args
  outputdir := argAfter "--outputdir" j.args
  timeout := j.timeout
  retry := j.retry

/-- `printJobSummary` renders every job of the prepared list. -/
def printJobSummary (job_list : List Job) : List JobRender :=
  job_list.map renderJob

/-- What the tail of `main` does with the prepared job list. -/
inductive EngineAction
  | summary (renders : List JobRender)
  | dispatch (jobs : List Job)
deriving DecidableEq

/-- The branch at the end of `main`: the source tests the module-level
global `DRY` (`if DRY:`), not the `dry` parameter it was passed and whose
docstring promises to control this branch. -/
def mainAction (globalDRY : Bool) ( dry : Bool) (job_list : List Job) :
    EngineAction :=
  if globalDRY then .summary (printJobSummary job_list) else .dispatch job_list

/-- A concrete prepared job used below. -/
def demoJob : Job := jobFor demoPrep 1 0 "20130203" "20130204"

/-- C9 at the failing input: with the engine's dry flag false but the
module global `DRY` true, `main` renders the summary and dispatches
nothing, although the claim (and the parameter's docstring) promise that
every prepared job is dispatched when the flag is false; dispatch is in
fact controlled by the global alone, the `dry` parameter being ignored. -/
theorem C9_dry_flag_ignored :
    mainAction true false [demoJob] = .summary [renderJob demoJob] ∧
    (∀ (jl : List Job) (d : Bool),
      mainAction true d jl = .summary (printJobSummary jl)) ∧
    (∀ (jl : List Job) (d : Bool), mainAction false d jl = .dispatch jl) :=
  ⟨rfl, fun _ _ => rfl, fun _ _ => rfl⟩

end FlexHelper
